import Mathlib

/-!
Verification development for the Vulkan rendering backend of the
dragonfire-engine repository (crates/rendering).  The definitions below are a
shallow embedding of the Rust source: mesh and material `Arc` pointers are
modelled as natural-number addresses (pointer identity becomes `Nat` equality,
the null pointer becomes `none`), the per-channel message streams of the
orchestrator are modelled as explicit per-channel logs, and the worker loop of
`render_thread` is modelled as a fold over the received command list.
GPU handles and floating point payloads (matrices, f32 vertex data) are
abstracted to opaque tokens: no modelled behaviour depends on them.
-/

/-- The `RenderCommand` message type (engine.rs:106-117).  The `Begin` payload
(secondary command buffer, camera matrices, descriptor set, formats) does not
influence any property modelled here and is omitted; `Render` carries the
addresses of the mesh and material `Arc`s; the transform payload is a float
matrix and is omitted. -/
inductive RenderCommand where
  | beginFrame
  | render (mesh : Nat) (material : Nat)
  | endFrame
deriving DecidableEq, Repr

/-- One draw request passed to `Engine::render` (engine.rs:258): the addresses
of the mesh and the material. -/
structure Draw where
  mesh : Nat
  material : Nat
deriving DecidableEq, Repr

/-- The orchestrator state of `Engine` (engine.rs:40-76) restricted to the
fields that the begin/render/end protocol reads or writes: `last_mesh` and
`last_material` (raw pointers, `none` = null), `current_thread`, `frame_count`,
the number of render worker channels (`render_channels.len()`), and one
message log per channel index recording the messages sent on that channel in
order.  The remaining fields (device handles, swapchain, fences, ...) are GPU
resources that none of the modelled operations read. -/
structure Engine where
  numThreads : Nat
  lastMesh : Option Nat
  lastMaterial : Option Nat
  currentThread : Nat
  frameCount : Nat
  logs : Nat → List RenderCommand

/-- Appends a message to every channel index below `n`, modelling the
`for (index, channel) in self.render_channels.iter().enumerate()` send loops
of `begin_rendering` (engine.rs:243-254) and `end_rendering`
(engine.rs:277-279). -/
def sendAll (logs : Nat → List RenderCommand) (n : Nat) (msg : RenderCommand) :
    Nat → List RenderCommand :=
  fun i => if i < n then logs i ++ [msg] else logs i

/-- Appends a message to the single channel `c`, modelling
`self.render_channels[self.current_thread].send(..)` (engine.rs:266-273). -/
def sendTo (logs : Nat → List RenderCommand) (c : Nat) (msg : RenderCommand) :
    Nat → List RenderCommand :=
  fun i => if i = c then logs i ++ [msg] else logs i

/-- `Engine::begin_rendering` (engine.rs:142-256) restricted to its effect on
the modelled state: it sends one `Begin` message to every worker channel.  In
the source the function additionally waits on the frame fence and condition
variable, possibly recreates the swapchain, writes the camera matrices into
the frame's uniform object and begins the primary command buffer; none of
those steps touches `last_mesh`, `last_material`, `current_thread` or
`frame_count`, which is reflected here by leaving those fields unchanged. -/
def Engine.begin_rendering (e : Engine) : Engine :=
  { e with logs := sendAll e.logs e.numThreads RenderCommand.beginFrame }

/-- `Engine::render` (engine.rs:258-274): identity-compare the mesh and
material addresses against `last_mesh`/`last_material`; if either differs,
advance `current_thread` by one modulo the channel count and record the new
pair; then send one `Render` message on channel `current_thread`.  The two
branches below inline "maybe rotate, then send on the (possibly updated)
current thread". -/
def Engine.render (e : Engine) (mesh material : Nat) : Engine :=
  if e.lastMesh = some mesh ∧ e.lastMaterial = some material then
    { e with logs := sendTo e.logs e.currentThread (RenderCommand.render mesh material) }
  else
    { e with
      currentThread := (e.currentThread + 1) % e.numThreads
      lastMesh := some mesh
      lastMaterial := some material
      logs := sendTo e.logs ((e.currentThread + 1) % e.numThreads)
          (RenderCommand.render mesh material) }

/-- `Engine::end_rendering` (engine.rs:276-330) restricted to the modelled
state: sends one `End` message to every worker channel and increments
`frame_count` (engine.rs:329).  The barrier wait, secondary-buffer execution
and `PresentData` hand-off do not touch the modelled fields. -/
def Engine.end_rendering (e : Engine) : Engine :=
  { e with
    logs := sendAll e.logs e.numThreads RenderCommand.endFrame
    frameCount := e.frameCount + 1 }

/-- The engine as constructed by `Engine::new` (init.rs:126-159): `last_mesh`
and `last_material` start null (init.rs:149-150), `current_thread` starts at 0
(init.rs:151), `frame_count` starts at 0 (init.rs:127), and no message has
been sent on any channel.  `n` is the worker thread count
`max(1, available_parallelism / 2)` (init.rs:69-75). -/
def initEngine (n : Nat) : Engine :=
  { numThreads := n
    lastMesh := none
    lastMaterial := none
    currentThread := 0
    frameCount := 0
    logs := fun _ => [] }

/-- Folds a draw list through `Engine::render`. -/
def runDraws (e : Engine) (draws : List Draw) : Engine :=
  draws.foldl (fun acc d => acc.render d.mesh d.material) e

/-- One full frame cycle: `begin_rendering`, the draw list, `end_rendering`. -/
def runFrame (e : Engine) (draws : List Draw) : Engine :=
  (runDraws e.begin_rendering draws).end_rendering

/-- Clears the per-channel logs.  The workers consume every message of a frame
before the barrier at `End` releases `end_rendering`, so clearing the logs
between two frames lets the next frame's reception sequence be read off the
log directly; the orchestrator fields are untouched. -/
def clearLogs (e : Engine) : Engine :=
  { e with logs := fun _ => [] }

/-- `cull_test` (lib.rs:94-102): the visibility test is a stub that always
returns true (marked todo in the source).  Its matrix arguments are ignored by
the stub and omitted here. -/
def cull_test (_mesh : Nat) : Bool :=
  true

/-- The per-thread state of `render_thread` (engine.rs:429-516) restricted to
what the `Render` arm reads and writes: the last-bound mesh and material
pointers (engine.rs:431-432), plus two instrumentation counters for how many
mesh rebinds (`mesh.bind`, engine.rs:474) and pipeline rebinds
(`material.bind`, engine.rs:479) the thread has recorded. -/
structure WorkerState where
  lastMesh : Option Nat
  lastMaterial : Option Nat
  meshBinds : Nat
  pipelineBinds : Nat
deriving DecidableEq, Repr

/-- The worker state at thread start (engine.rs:430-432): both pointers null,
nothing recorded yet. -/
def initWorker : WorkerState :=
  { lastMesh := none, lastMaterial := none, meshBinds := 0, pipelineBinds := 0 }

/-- One iteration of the `render_thread` receive loop (engine.rs:436-514).
`Begin` only stores per-frame handles and leaves the last-bound pointers
alone; `Render` runs `cull_test` and, when visible, rebinds the mesh only if
its address differs from `last_mesh` (engine.rs:472-475) and rebinds the
material's pipeline only if its address differs from `last_material`
(engine.rs:477-488); `End` resets both pointers to null (engine.rs:509-510). -/
def workerStep (s : WorkerState) : RenderCommand → WorkerState
  | RenderCommand.beginFrame => s
  | RenderCommand.render mesh material =>
    if cull_test mesh then
      let s1 :=
        if s.lastMesh = some mesh then s
        else { s with lastMesh := some mesh, meshBinds := s.meshBinds + 1 }
      if s1.lastMaterial = some material then s1
      else { s1 with lastMaterial := some material, pipelineBinds := s1.pipelineBinds + 1 }
    else s
  | RenderCommand.endFrame => { s with lastMesh := none, lastMaterial := none }

/-- Runs a worker thread over the command list received on its channel. -/
def runWorker (cmds : List RenderCommand) : WorkerState :=
  cmds.foldl workerStep initWorker

/-- True exactly on `Render` messages. -/
def isRender : RenderCommand → Bool
  | RenderCommand.render _ _ => true
  | _ => false

/-- Total number of `Render` messages sent across all worker channels. -/
def totalRenders (e : Engine) : Nat :=
  Finset.sum (Finset.range e.numThreads) fun i => (e.logs i).countP isRender

/-- Lexicographic order used by the spec's phrase "sorted by (material,
mesh)": material address first, then mesh address. -/
def matMeshLe (a b : Draw) : Prop :=
  a.material < b.material ∨ (a.material = b.material ∧ a.mesh ≤ b.mesh)

instance : DecidableRel matMeshLe := fun a b =>
  inferInstanceAs (Decidable (a.material < b.material ∨ (a.material = b.material ∧ a.mesh ≤ b.mesh)))

/-- Number of distinct material addresses in a draw list. -/
def distinctMaterialCount (draws : List Draw) : Nat :=
  ((draws.map Draw.material).dedup).length

/-- Total number of pipeline rebinds recorded across all worker threads after
one frame cycle over `draws` on an engine with `n` worker channels. -/
def totalPipelineRebinds (n : Nat) (draws : List Draw) : Nat :=
  Finset.sum (Finset.range n) fun i =>
    (runWorker ((runFrame (initEngine n) draws).logs i)).pipelineBinds

/-- Number of positions at which a material sequence differs from its
predecessor, starting from a given last-seen value (`none` = null pointer).
This is exactly how many pipeline rebinds a single worker records on the
sequence. -/
def countChanges : Option Nat → List Nat → Nat
  | _, [] => 0
  | last, m :: ms =>
    if last = some m then countChanges (some m) ms else countChanges (some m) ms + 1

/-- GPU commands recorded by `Texture::new` (texture.rs:79-141), one
constructor per recorded command. -/
inductive TextureCmd where
  | transitionUndefinedToTransferDst
  | copyBufferToImage
  | transitionTransferDstToShaderRead
  | endCommandBuffer
  | submitQueue
deriving DecidableEq, Repr

/-- The command sequence recorded by `Texture::new`, in source order: the
undefined→transfer-dst barrier (texture.rs:89-97), then the
transfer-dst→shader-read-only barrier (texture.rs:121-129), then
`cmd_copy_buffer_to_image` (texture.rs:130-136), then `end_command_buffer`
(texture.rs:138) and `queue_submit` (texture.rs:140). -/
def texture_new_commands : List TextureCmd :=
  [TextureCmd.transitionUndefinedToTransferDst,
   TextureCmd.transitionTransferDstToShaderRead,
   TextureCmd.copyBufferToImage,
   TextureCmd.endCommandBuffer,
   TextureCmd.submitQueue]

/-- A mesh vertex (mesh.rs:20-26).  The two f32 vector payloads (position,
normal) are abstracted to opaque tokens: floating point content plays no role
in the modelled claims, only the ownership of the CPU-side vectors does. -/
structure Vertex where
  position : Nat
  normal : Nat
deriving DecidableEq, Repr

/-- A GPU buffer handle (alloc.rs:94-98); the vk/vma internals are opaque. -/
structure Buffer where
  handle : Nat
deriving DecidableEq, Repr

/-- The `Mesh` struct (mesh.rs:13-18): it stores the CPU-side index vector,
the CPU-side vertex vector (source field `_vertices`), and the two GPU
buffers. -/
structure Mesh where
  indices : List Nat
  _vertices : List Vertex
  vertex_buffer : Buffer
  index_buffer : Buffer
deriving DecidableEq, Repr

/-- `Mesh::new` (mesh.rs:44-132) restricted to the constructed value on the
success path: after the staging copy and the blocking queue submission it
returns `Mesh { indices, _vertices: vertices, vertex_buffer, index_buffer }`
(mesh.rs:125-130), moving both CPU-side vectors into the struct.  The two GPU
buffer handles are opaque. -/
def Mesh.new (vertices : List Vertex) (indices : List Nat) : Mesh :=
  { indices := indices
    _vertices := vertices
    vertex_buffer := { handle := 0 }
    index_buffer := { handle := 1 } }

/-- `Mesh::get_index_count` (mesh.rs:140-143): `self.indices.len() as u32`;
the u32 cast wraps modulo 2^32. -/
def Mesh.get_index_count (m : Mesh) : Nat :=
  m.indices.length % 4294967296

/-- The destruction steps performed by `Drop for Engine` (engine.rs:676-733),
one constructor per step that the drop implementation performs. -/
inductive DropEvent where
  | joinPresentThread
  | joinRenderThreads
  | destroyUtilityPool
  | destroyFramePools (slot : Nat)
  | destroyFrameSemaphores (slot : Nat)
  | destroyFrameFence (slot : Nat)
  | destroyFrameUbo (slot : Nat)
  | destroyDepthImage
  | destroyDepthView
  | destroyDescriptorPool
  | destroyDescriptorLayout
  | destroySwapchain
  | destroyAllocator
  | panicAllocatorInUse
  | cleanupPipelineCache
  | destroyDevice
  | destroySurface
  | destroyInstance
deriving DecidableEq, Repr

/-- The ordered event trace of `Drop for Engine` (engine.rs:676-733) as a
function of the allocator's `Arc` reference count at drop time.
`Arc::get_mut` (engine.rs:716) succeeds exactly when the count is 1; in that
case the allocator is destroyed and teardown continues (engine.rs:717,
723-730); otherwise an error is logged and the drop panics
(engine.rs:719-721), so nothing after the panic runs.  The per-frame loop
(engine.rs:695-705) over the FRAMES_IN_FLIGHT = 2 slots is unrolled. -/
def engine_drop_events (allocatorRefCount : Nat) : List DropEvent :=
  [DropEvent.joinPresentThread, DropEvent.joinRenderThreads,
   DropEvent.destroyUtilityPool,
   DropEvent.destroyFramePools 0, DropEvent.destroyFrameSemaphores 0,
   DropEvent.destroyFrameFence 0, DropEvent.destroyFrameUbo 0,
   DropEvent.destroyFramePools 1, DropEvent.destroyFrameSemaphores 1,
   DropEvent.destroyFrameFence 1, DropEvent.destroyFrameUbo 1,
   DropEvent.destroyDepthImage, DropEvent.destroyDepthView,
   DropEvent.destroyDescriptorPool, DropEvent.destroyDescriptorLayout,
   DropEvent.destroySwapchain]
  ++ (if allocatorRefCount = 1 then
        [DropEvent.destroyAllocator, DropEvent.cleanupPipelineCache,
         DropEvent.destroyDevice, DropEvent.destroySurface,
         DropEvent.destroyInstance]
      else [DropEvent.panicAllocatorInUse])

/-- The Vulkan pipeline cache object, identified by the initial data blob it
was created with (pipeline.rs:185-190); an empty blob models
`create_pipeline_cache(&Default::default())`. -/
structure PipelineCache where
  initialData : List Nat
deriving DecidableEq, Repr

/-- The cache created from no initial data (pipeline.rs:190). -/
def emptyCache : PipelineCache :=
  { initialData := [] }

/-- `load_cache` (pipeline.rs:182-192): `fs::read` of the on-disk cache file
either succeeds with the file bytes (`some data`) or fails (`none`); on any
read failure the cache is created empty instead.  The function is total in
the file outcome: a read failure cannot escape it.  (The `VkResult` of
`create_pipeline_cache` itself, unrelated to file I/O, is not modelled.) -/
def load_cache (fileData : Option (List Nat)) : PipelineCache :=
  match fileData with
  | some data => { initialData := data }
  | none => emptyCache

/-- `CACHE.get_or_try_init(|| load_cache(device))` (pipeline.rs:18,159): the
`OnceCell` either already holds a cache, which is returned unchanged, or is
filled by `load_cache`.  Returns the cache handed to the caller together with
the new cell contents. -/
def cache_get_or_init (cell : Option PipelineCache) (fileData : Option (List Nat)) :
    PipelineCache × Option PipelineCache :=
  match cell with
  | some c => (c, some c)
  | none => (load_cache fileData, some (load_cache fileData))

/-- Outcome log entries of `cleanup_cache` (pipeline.rs:197-211). -/
inductive CacheCleanupLog where
  | savedOk
  | writeFailed
deriving DecidableEq, Repr

/-- `cleanup_cache` (pipeline.rs:197-211): if the cell was never initialized
it does nothing; otherwise it tries to write the cache blob to disk —
`fs::write` failure is logged as an error (pipeline.rs:203) and nothing is
propagated (return type is unit) — and then destroys the cache object in
every case (pipeline.rs:208).  Returns the log entries and whether the cache
object was destroyed. -/
def cleanup_cache (cell : Option PipelineCache) (writeFails : Bool) :
    List CacheCleanupLog × Bool :=
  match cell with
  | none => ([], false)
  | some _ =>
    ((if writeFails then [CacheCleanupLog.writeFailed] else [CacheCleanupLog.savedOk]), true)

/-- The u32 modulus; `min_image_count` arithmetic in the source is u32. -/
def U32_MOD : Nat :=
  4294967296

/-- The image-count selection of `create_swapchain` (init.rs:425-431): if the
surface reports `max_image_count == 0` (no limit) the count is
`min_image_count + 1`, otherwise `min(max_image_count, min_image_count + 1)`;
the `+ 1` is u32 addition and wraps. -/
def create_swapchain_image_count (minImageCount maxImageCount : Nat) : Nat :=
  if maxImageCount = 0 then (minImageCount + 1) % U32_MOD
  else Nat.min maxImageCount ((minImageCount + 1) % U32_MOD)

/-- Invariant holding between `begin_rendering` and `end_rendering` on an
engine with `n` channels: every channel below `n` has received `Begin`
followed only by `Render` messages, `k` `Render` messages have been sent in
total, and the selected thread index is in range. -/
def MidInv (e : Engine) (n k : Nat) : Prop :=
  e.numThreads = n ∧ e.currentThread < n
  ∧ (∀ i, i < n →
      ∃ mid, e.logs i = RenderCommand.beginFrame :: mid ∧ ∀ c ∈ mid, isRender c = true)
  ∧ totalRenders e = k

/-- C4: `render(mesh, material, transform)` identity-compares the pair against
the orchestrator's last-seen values; if either differs it advances
`current_thread` by one modulo the number of worker channels and records the
new pair; in all cases it then sends exactly one `Render` message on the
currently selected worker's channel and touches no other channel. -/
theorem render_dispatch (e : Engine) (mesh material : Nat) :
    ((e.render mesh material).currentThread
        = if e.lastMesh = some mesh ∧ e.lastMaterial = some material
          then e.currentThread else (e.currentThread + 1) % e.numThreads)
  ∧ ((e.render mesh material).lastMesh
        = if e.lastMesh = some mesh ∧ e.lastMaterial = some material
          then e.lastMesh else some mesh)
  ∧ ((e.render mesh material).lastMaterial
        = if e.lastMesh = some mesh ∧ e.lastMaterial = some material
          then e.lastMaterial else some material)
  ∧ ((e.render mesh material).logs ((e.render mesh material).currentThread)
        = e.logs ((e.render mesh material).currentThread)
          ++ [RenderCommand.render mesh material])
  ∧ (∀ j, j ≠ (e.render mesh material).currentThread →
        (e.render mesh material).logs j = e.logs j)
  ∧ (e.render mesh material).numThreads = e.numThreads
  ∧ (e.render mesh material).frameCount = e.frameCount := by
  by_cases h : e.lastMesh = some mesh ∧ e.lastMaterial = some material
  · refine ⟨by simp [Engine.render, h], by simp [Engine.render, h],
      by simp [Engine.render, h], by simp [Engine.render, h, sendTo], ?_,
      by simp [Engine.render, h], by simp [Engine.render, h]⟩
    intro j hj
    simp only [Engine.render, if_pos h] at hj ⊢
    simp [sendTo, hj]
  · refine ⟨by simp [Engine.render, h], by simp [Engine.render, h],
      by simp [Engine.render, h], by simp [Engine.render, h, sendTo], ?_,
      by simp [Engine.render, h], by simp [Engine.render, h]⟩
    intro j hj
    simp only [Engine.render, if_neg h] at hj ⊢
    simp [sendTo, hj]

/-- Witness for C4 on a concrete engine: a fresh two-channel engine has null
last-pointers, so the first `render` rotates to channel 1 and channel 0
receives nothing. -/
theorem render_dispatch_witness :
    (Engine.render (initEngine 2) 3 4).logs 0 = [] :=
  (render_dispatch (initEngine 2) 3 4).2.2.2.2.1 0 (by decide)

/-- C5 (divergence witness): in the command sequence recorded by
`Texture::new`, the transfer-dst→shader-read-only transition is recorded
BEFORE the buffer-to-image copy, contradicting the claimed order
(transition, copy, transition); the copy itself still declares
TRANSFER_DST_OPTIMAL as the image layout (texture.rs:134), so the source is
internally inconsistent and the claimed order is the evident intent. -/
theorem texture_new_copy_after_second_transition :
    texture_new_commands.indexOf TextureCmd.transitionTransferDstToShaderRead
      < texture_new_commands.indexOf TextureCmd.copyBufferToImage
    ∧ texture_new_commands
        = [TextureCmd.transitionUndefinedToTransferDst,
           TextureCmd.transitionTransferDstToShaderRead,
           TextureCmd.copyBufferToImage,
           TextureCmd.endCommandBuffer,
           TextureCmd.submitQueue] := by
  exact ⟨by decide, rfl⟩

/-- C6 (counterexample): `Mesh::new` moves the CPU-side vertex vector into the
returned `Mesh` (field `_vertices`, mesh.rs:127), so a constructed mesh still
owns CPU-side vertex data, contrary to the claim. -/
theorem mesh_retains_vertices_counterexample :
    (Mesh.new [{ position := 0, normal := 0 }] [0, 1, 2])._vertices
      = [{ position := 0, normal := 0 }]
    ∧ (Mesh.new [{ position := 0, normal := 0 }] [0, 1, 2])._vertices ≠ [] := by
  exact ⟨rfl, by decide⟩

/-- C6 (amended): after `Mesh::new` returns, the mesh retains CPU-side copies
of both the vertex vector and the index vector; the index vector answers
`get_index_count` (`indices.len() as u32`). -/
theorem mesh_new_retains_cpu_data (vs : List Vertex) (ixs : List Nat) :
    (Mesh.new vs ixs)._vertices = vs
    ∧ (Mesh.new vs ixs).indices = ixs
    ∧ (Mesh.new vs ixs).get_index_count = ixs.length % 4294967296 :=
  ⟨rfl, rfl, rfl⟩

/-- C7: in the `Drop for Engine` trace with allocator reference count 1, the
per-frame uniform objects, the depth image and the swapchain are all
destroyed strictly before the allocator; with reference count above 1 the
drop panics with the allocator-in-use leak report and the allocator is never
silently destroyed. -/
theorem engine_drop_allocator_protocol (rc : Nat) :
    ((engine_drop_events 1).indexOf (DropEvent.destroyFrameUbo 0)
        < (engine_drop_events 1).indexOf DropEvent.destroyAllocator
      ∧ (engine_drop_events 1).indexOf (DropEvent.destroyFrameUbo 1)
        < (engine_drop_events 1).indexOf DropEvent.destroyAllocator
      ∧ (engine_drop_events 1).indexOf DropEvent.destroyDepthImage
        < (engine_drop_events 1).indexOf DropEvent.destroyAllocator
      ∧ (engine_drop_events 1).indexOf DropEvent.destroySwapchain
        < (engine_drop_events 1).indexOf DropEvent.destroyAllocator
      ∧ DropEvent.destroyAllocator ∈ engine_drop_events 1
      ∧ DropEvent.panicAllocatorInUse ∉ engine_drop_events 1)
  ∧ (1 < rc →
      DropEvent.panicAllocatorInUse ∈ engine_drop_events rc
      ∧ DropEvent.destroyAllocator ∉ engine_drop_events rc) := by
  constructor
  · decide
  · intro hrc
    have h1 : rc ≠ 1 := by omega
    have hev : engine_drop_events rc
        = [DropEvent.joinPresentThread, DropEvent.joinRenderThreads,
           DropEvent.destroyUtilityPool,
           DropEvent.destroyFramePools 0, DropEvent.destroyFrameSemaphores 0,
           DropEvent.destroyFrameFence 0, DropEvent.destroyFrameUbo 0,
           DropEvent.destroyFramePools 1, DropEvent.destroyFrameSemaphores 1,
           DropEvent.destroyFrameFence 1, DropEvent.destroyFrameUbo 1,
           DropEvent.destroyDepthImage, DropEvent.destroyDepthView,
           DropEvent.destroyDescriptorPool, DropEvent.destroyDescriptorLayout,
           DropEvent.destroySwapchain]
          ++ [DropEvent.panicAllocatorInUse] := by
      simp [engine_drop_events, h1]
    rw [hev]
    exact ⟨by decide, by decide⟩

/-- Witness for C7 at reference count 2: the drop panics with the leak report
and does not destroy the allocator. -/
theorem engine_drop_allocator_protocol_witness :
    DropEvent.panicAllocatorInUse ∈ engine_drop_events 2
    ∧ DropEvent.destroyAllocator ∉ engine_drop_events 2 :=
  (engine_drop_allocator_protocol 2).2 (by decide)

/-- C8: a failed read of the on-disk pipeline cache file yields the empty
cache instead of an error; a failed write at shutdown is logged and the
function still completes (destroying the cache); the cache cell is filled by
the first `create_pipeline` caller and every later caller reuses the same
cache regardless of what the file would now contain. -/
theorem pipeline_cache_resilience (fd fd2 : Option (List Nat)) (c : PipelineCache) :
    load_cache none = emptyCache
  ∧ cleanup_cache (some c) true = ([CacheCleanupLog.writeFailed], true)
  ∧ cleanup_cache (some c) false = ([CacheCleanupLog.savedOk], true)
  ∧ cleanup_cache none true = ([], false)
  ∧ (cache_get_or_init none fd).2 = some ((cache_get_or_init none fd).1)
  ∧ (cache_get_or_init ((cache_get_or_init none fd).2) fd2).1
      = (cache_get_or_init none fd).1 :=
  ⟨rfl, rfl, rfl, rfl, rfl, rfl⟩

/-- C9: the swapchain image count equals `min+1` when the surface reports no
maximum (0) and `min(max, min+1)` otherwise; under the Vulkan guarantee that
the maximum is zero or at least the minimum (and absent u32 wrap-around) the
count lies between the surface minimum and minimum+1. -/
theorem swapchain_image_count_spec (minC maxC : Nat)
    (hmin : minC + 1 < U32_MOD) (hvalid : maxC = 0 ∨ minC ≤ maxC) :
    create_swapchain_image_count minC maxC
      = (if maxC = 0 then minC + 1 else Nat.min maxC (minC + 1))
  ∧ minC ≤ create_swapchain_image_count minC maxC
  ∧ create_swapchain_image_count minC maxC ≤ minC + 1 := by
  have hmod : (minC + 1) % U32_MOD = minC + 1 := Nat.mod_eq_of_lt hmin
  unfold create_swapchain_image_count
  rw [hmod]
  by_cases h0 : maxC = 0
  · simp [h0]
  · rcases hvalid with h | h
    · exact absurd h h0
    · simp only [if_neg h0]
      refine ⟨trivial, ?_, ?_⟩
      · exact Nat.le_min.mpr ⟨h, Nat.le_succ minC⟩
      · exact Nat.min_le_right _ _

/-- Witness for C9 with surface minimum 2 and maximum 3: the count is 3 and
lies between 2 and 3. -/
theorem swapchain_image_count_spec_witness :
    2 + 1 < U32_MOD ∧ ((3 : Nat) = 0 ∨ 2 ≤ 3)
    ∧ 2 ≤ create_swapchain_image_count 2 3 :=
  ⟨by decide, Or.inr (by decide),
    (swapchain_image_count_spec 2 3 (by decide) (Or.inr (by decide))).2.1⟩

/-- C10 (counterexample): on a machine where `max(1, cores/2) = 1` the engine
has a single worker channel; the first `render` after engine creation then
advances `current_thread` from 0 to `(0+1) % 1 = 0`, not to worker 1 as
claimed. -/
theorem first_render_single_channel_counterexample :
    (initEngine 1).lastMesh = none
  ∧ (initEngine 1).currentThread = 0
  ∧ ((initEngine 1).begin_rendering.render 5 7).currentThread = 0
  ∧ ((initEngine 1).begin_rendering.render 5 7).currentThread ≠ 1 := by
  refine ⟨rfl, rfl, by decide, by decide⟩

/-- C10 (amended): `begin_rendering` never modifies the orchestrator's
batching state (`last_mesh`, `last_material`, `current_thread`), and neither
does `end_rendering`, so that state persists across frames; the first
`render` after engine creation always advances `current_thread` by one modulo
the channel count (selecting worker `1 % N`: worker 1 when N ≥ 2, worker 0
again when N = 1), since `last_mesh` starts null. -/
theorem begin_preserves_batching_state (e : Engine) (n mesh material : Nat) :
    (e.begin_rendering).lastMesh = e.lastMesh
  ∧ (e.begin_rendering).lastMaterial = e.lastMaterial
  ∧ (e.begin_rendering).currentThread = e.currentThread
  ∧ (e.end_rendering).lastMesh = e.lastMesh
  ∧ (e.end_rendering).lastMaterial = e.lastMaterial
  ∧ (e.end_rendering).currentThread = e.currentThread
  ∧ ((initEngine n).begin_rendering.render mesh material).currentThread = 1 % n := by
  refine ⟨rfl, rfl, rfl, rfl, rfl, rfl, ?_⟩
  simp [initEngine, Engine.begin_rendering, Engine.render]

theorem sum_countP_sendTo (f : Nat → List RenderCommand) (n c : Nat) (hc : c < n)
    (msg : RenderCommand) :
    (Finset.sum (Finset.range n) fun i => ((sendTo f c msg) i).countP isRender)
      = (Finset.sum (Finset.range n) fun i => (f i).countP isRender)
        + (if isRender msg then 1 else 0) := by
  have h1 : ∀ i, ((sendTo f c msg) i).countP isRender
      = (f i).countP isRender + (if i = c then (if isRender msg then 1 else 0) else 0) := by
    intro i
    by_cases h : i = c
    · simp [sendTo, h, List.countP_append, List.countP_cons]
    · simp [sendTo, h]
  calc (Finset.sum (Finset.range n) fun i => ((sendTo f c msg) i).countP isRender)
      = Finset.sum (Finset.range n) fun i =>
          (f i).countP isRender + (if i = c then (if isRender msg then 1 else 0) else 0) :=
        Finset.sum_congr rfl fun i _ => h1 i
    _ = (Finset.sum (Finset.range n) fun i => (f i).countP isRender)
        + Finset.sum (Finset.range n) fun i =>
            (if i = c then (if isRender msg then 1 else 0) else 0) :=
        Finset.sum_add_distrib
    _ = (Finset.sum (Finset.range n) fun i => (f i).countP isRender)
        + (if isRender msg then 1 else 0) := by
        rw [Finset.sum_ite_eq' (Finset.range n) c fun _ => (if isRender msg then 1 else 0)]
        simp [Finset.mem_range.mpr hc]

theorem sum_countP_sendAll (f : Nat → List RenderCommand) (n : Nat) (msg : RenderCommand)
    (h : isRender msg = false) :
    (Finset.sum (Finset.range n) fun i => ((sendAll f n msg) i).countP isRender)
      = Finset.sum (Finset.range n) fun i => (f i).countP isRender := by
  apply Finset.sum_congr rfl
  intro i hi
  have hi' : i < n := Finset.mem_range.mp hi
  simp [sendAll, hi', List.countP_append, List.countP_cons, h]

theorem midInv_begin (n ct fc : Nat) (lm lmat : Option Nat) (hct : ct < n) :
    MidInv (Engine.begin_rendering (Engine.mk n lm lmat ct fc fun _ => [])) n 0 := by
  refine ⟨rfl, hct, ?_, ?_⟩
  · intro i hi
    refine ⟨[], ?_, by simp⟩
    simp [Engine.begin_rendering, sendAll, hi]
  · unfold totalRenders
    apply Finset.sum_eq_zero
    intro i hi
    have hi' : i < n := Finset.mem_range.mp hi
    simp [Engine.begin_rendering, sendAll, hi', isRender, List.countP_cons]

theorem midInv_render (e : Engine) (n k mesh material : Nat) (h : MidInv e n k) :
    MidInv (e.render mesh material) n (k + 1) := by
  obtain ⟨hn, hct, hlogs, htot⟩ := h
  by_cases hc : e.lastMesh = some mesh ∧ e.lastMaterial = some material
  · refine ⟨by simpa [Engine.render, hc] using hn,
      by simpa [Engine.render, hc] using hct, ?_, ?_⟩
    · intro i hi
      obtain ⟨mid, hmid, hren⟩ := hlogs i hi
      by_cases hic : i = e.currentThread
      · subst hic
        refine ⟨mid ++ [RenderCommand.render mesh material], ?_, ?_⟩
        · simp [Engine.render, hc, sendTo, hmid]
        · intro x hx
          rcases List.mem_append.mp hx with hx | hx
          · exact hren x hx
          · simp at hx
            simp [hx, isRender]
      · exact ⟨mid, by simp [Engine.render, hc, sendTo, hic, hmid], hren⟩
    · show totalRenders _ = k + 1
      unfold totalRenders at htot ⊢
      have : (e.render mesh material).numThreads = e.numThreads := by
        simp [Engine.render, hc]
      rw [this]
      have hlogs' : (e.render mesh material).logs
          = sendTo e.logs e.currentThread (RenderCommand.render mesh material) := by
        simp [Engine.render, hc]
      rw [hlogs']
      rw [sum_countP_sendTo e.logs e.numThreads e.currentThread (hn ▸ hct) _]
      simp [isRender, htot]
  · refine ⟨by simpa [Engine.render, hc] using hn, ?_, ?_, ?_⟩
    · have hth : (e.render mesh material).currentThread = (e.currentThread + 1) % e.numThreads := by
        simp [Engine.render, hc]
      rw [hth, hn]
      exact Nat.mod_lt _ (by omega)
    · intro i hi
      obtain ⟨mid, hmid, hren⟩ := hlogs i hi
      by_cases hic : i = (e.currentThread + 1) % e.numThreads
      · subst hic
        refine ⟨mid ++ [RenderCommand.render mesh material], ?_, ?_⟩
        · simp [Engine.render, hc, sendTo, hmid]
        · intro x hx
          rcases List.mem_append.mp hx with hx | hx
          · exact hren x hx
          · simp at hx
            simp [hx, isRender]
      · exact ⟨mid, by simp [Engine.render, hc, sendTo, hic, hmid], hren⟩
    · show totalRenders _ = k + 1
      unfold totalRenders at htot ⊢
      have hthreads : (e.render mesh material).numThreads = e.numThreads := by
        simp [Engine.render, hc]
      rw [hthreads]
      have hlogs' : (e.render mesh material).logs
          = sendTo e.logs ((e.currentThread + 1) % e.numThreads)
              (RenderCommand.render mesh material) := by
        simp [Engine.render, hc]
      rw [hlogs']
      have hlt : (e.currentThread + 1) % e.numThreads < e.numThreads :=
        Nat.mod_lt _ (by omega)
      rw [sum_countP_sendTo e.logs e.numThreads _ hlt _]
      simp [isRender, htot]

theorem midInv_runDraws (draws : List Draw) :
    ∀ (e : Engine) (n k : Nat), MidInv e n k →
      MidInv (runDraws e draws) n (k + draws.length) := by
  induction draws with
  | nil =>
    intro e n k h
    simpa [runDraws] using h
  | cons d rest ih =>
    intro e n k h
    have h2 := ih (e.render d.mesh d.material) n (k + 1) (midInv_render e n k d.mesh d.material h)
    have heq : runDraws e (d :: rest) = runDraws (e.render d.mesh d.material) rest := by
      simp [runDraws]
    rw [heq]
    show MidInv (runDraws (e.render d.mesh d.material) rest) n (k + (rest.length + 1))
    have harith : k + (rest.length + 1) = k + 1 + rest.length := by omega
    rw [harith]
    exact h2

/-- C1: for every begin..end cycle, each of the N worker channels receives
exactly one `Begin`, then zero or more `Render` messages, then exactly one
`End`, in that order; and the total number of `Render` messages sent across
the channels equals the number of `render()` calls, each `render()` call
sending exactly one `Render` message.  `ct` ranges over the possible values
of `current_thread` entering the frame (always below the channel count). -/
theorem begin_render_end_protocol (n ct fc : Nat) (lm lmat : Option Nat)
    (_hn : 0 < n) (hct : ct < n) (draws : List Draw) :
    (∀ i, i < n →
      ∃ mid,
        (runFrame (Engine.mk n lm lmat ct fc fun _ => []) draws).logs i
          = RenderCommand.beginFrame :: (mid ++ [RenderCommand.endFrame])
        ∧ ∀ c ∈ mid, isRender c = true)
    ∧ totalRenders (runFrame (Engine.mk n lm lmat ct fc fun _ => []) draws)
        = draws.length := by
  have h0 := midInv_begin n ct fc lm lmat hct
  have h1 := midInv_runDraws draws _ n 0 h0
  obtain ⟨hn', hct', hlogs, htot⟩ := h1
  constructor
  · intro i hi
    obtain ⟨mid, hmid, hren⟩ := hlogs i hi
    refine ⟨mid, ?_, hren⟩
    show (Engine.end_rendering _).logs i = _
    have hi' : i < (runDraws (Engine.begin_rendering _) draws).numThreads := hn' ▸ hi
    simp [Engine.end_rendering, sendAll, hi', hmid]
  · show totalRenders (Engine.end_rendering _) = _
    unfold totalRenders at htot ⊢
    rw [show (Engine.end_rendering (runDraws (Engine.begin_rendering
        (Engine.mk n lm lmat ct fc fun _ => [])) draws)).numThreads
      = (runDraws (Engine.begin_rendering
        (Engine.mk n lm lmat ct fc fun _ => [])) draws).numThreads from rfl]
    rw [show (Engine.end_rendering (runDraws (Engine.begin_rendering
        (Engine.mk n lm lmat ct fc fun _ => [])) draws)).logs
      = sendAll (runDraws (Engine.begin_rendering
          (Engine.mk n lm lmat ct fc fun _ => [])) draws).logs
        (runDraws (Engine.begin_rendering
          (Engine.mk n lm lmat ct fc fun _ => [])) draws).numThreads
        RenderCommand.endFrame from rfl]
    rw [sum_countP_sendAll _ _ _ (by simp [isRender])]
    simpa using htot

theorem begin_render_end_protocol_witness :
    0 < 2 ∧ 0 < 2
    ∧ totalRenders (runFrame (Engine.mk 2 none none 0 0 fun _ => []) [Draw.mk 3 4]) = 1 :=
  ⟨by decide, by decide,
    (begin_render_end_protocol 2 0 0 none none (by decide) (by decide) [Draw.mk 3 4]).2⟩

/-- C2: the begin, render twice with the same mesh/material pair, end
scenario performed twice in a row: the first render of frame one rotates to
channel `1 % n` and the second render does not rotate; both frames deliver
`[Begin, Render, Render, End]` on that channel; each `end_rendering`
increments the frame counter by exactly 1; and the worker processing that
channel performs no mesh or pipeline rebind on the second `Render` (its state
after three commands equals its state after two), recording exactly one mesh
bind and one pipeline bind for the whole frame. -/
theorem same_pair_scenario (n : Nat) (hn : 0 < n) :
    ((initEngine n).begin_rendering.render 0 0).currentThread = 1 % n
  ∧ (((initEngine n).begin_rendering.render 0 0).render 0 0).currentThread = 1 % n
  ∧ (runFrame (initEngine n) [Draw.mk 0 0, Draw.mk 0 0]).frameCount = 1
  ∧ (runFrame (clearLogs (runFrame (initEngine n) [Draw.mk 0 0, Draw.mk 0 0]))
      [Draw.mk 0 0, Draw.mk 0 0]).frameCount = 2
  ∧ (runFrame (initEngine n) [Draw.mk 0 0, Draw.mk 0 0]).logs (1 % n)
      = [RenderCommand.beginFrame, RenderCommand.render 0 0,
         RenderCommand.render 0 0, RenderCommand.endFrame]
  ∧ (runFrame (clearLogs (runFrame (initEngine n) [Draw.mk 0 0, Draw.mk 0 0]))
      [Draw.mk 0 0, Draw.mk 0 0]).logs (1 % n)
      = [RenderCommand.beginFrame, RenderCommand.render 0 0,
         RenderCommand.render 0 0, RenderCommand.endFrame]
  ∧ runWorker (List.take 3 [RenderCommand.beginFrame, RenderCommand.render 0 0,
        RenderCommand.render 0 0, RenderCommand.endFrame])
      = runWorker (List.take 2 [RenderCommand.beginFrame, RenderCommand.render 0 0,
        RenderCommand.render 0 0, RenderCommand.endFrame])
  ∧ (runWorker [RenderCommand.beginFrame, RenderCommand.render 0 0,
        RenderCommand.render 0 0, RenderCommand.endFrame]).meshBinds = 1
  ∧ (runWorker [RenderCommand.beginFrame, RenderCommand.render 0 0,
        RenderCommand.render 0 0, RenderCommand.endFrame]).pipelineBinds = 1 := by
  have h1n : 1 % n < n := Nat.mod_lt 1 hn
  refine ⟨?_, ?_, ?_, ?_, ?_, ?_, by decide, by decide, by decide⟩
  · simp [initEngine, Engine.begin_rendering, Engine.render]
  · simp [initEngine, Engine.begin_rendering, Engine.render]
  · simp [runFrame, runDraws, initEngine, Engine.begin_rendering, Engine.render,
      Engine.end_rendering]
  · simp [runFrame, runDraws, initEngine, clearLogs, Engine.begin_rendering, Engine.render,
      Engine.end_rendering]
  · simp [runFrame, runDraws, initEngine, Engine.begin_rendering, Engine.render,
      Engine.end_rendering, sendAll, sendTo, h1n]
  · simp [runFrame, runDraws, initEngine, clearLogs, Engine.begin_rendering, Engine.render,
      Engine.end_rendering, sendAll, sendTo, h1n]

/-- Witness for C2 on a two-channel engine. -/
theorem same_pair_scenario_witness :
    0 < 2 ∧ (runFrame (initEngine 2) [Draw.mk 0 0, Draw.mk 0 0]).frameCount = 1 :=
  ⟨by decide, (same_pair_scenario 2 (by decide)).2.2.1⟩

theorem runDraws_single_channel (draws : List Draw) :
    ∀ e : Engine, e.numThreads = 1 → e.currentThread = 0 →
      (runDraws e draws).numThreads = 1
      ∧ (runDraws e draws).currentThread = 0
      ∧ (runDraws e draws).logs 0
          = e.logs 0 ++ draws.map (fun d => RenderCommand.render d.mesh d.material) := by
  induction draws with
  | nil =>
    intro e h1 h2
    exact ⟨h1, h2, by simp [runDraws]⟩
  | cons d rest ih =>
    intro e h1 h2
    have hstep : (e.render d.mesh d.material).numThreads = 1
        ∧ (e.render d.mesh d.material).currentThread = 0
        ∧ (e.render d.mesh d.material).logs 0
            = e.logs 0 ++ [RenderCommand.render d.mesh d.material] := by
      by_cases hc : e.lastMesh = some d.mesh ∧ e.lastMaterial = some d.material
      · exact ⟨by simp [Engine.render, hc, h1],
          by simp [Engine.render, hc, h2],
          by simp [Engine.render, hc, sendTo, h2]⟩
      · exact ⟨by simp [Engine.render, hc, h1],
          by simp [Engine.render, hc, h1, h2],
          by simp [Engine.render, hc, sendTo, h1, h2]⟩
    obtain ⟨ha, hb, hcc⟩ := hstep
    obtain ⟨x, y, z⟩ := ih (e.render d.mesh d.material) ha hb
    have heq : runDraws e (d :: rest) = runDraws (e.render d.mesh d.material) rest := by
      simp [runDraws]
    rw [heq]
    refine ⟨x, y, ?_⟩
    rw [z, hcc]
    simp

theorem frame_log_single_channel (draws : List Draw) :
    (runFrame (initEngine 1) draws).logs 0
      = RenderCommand.beginFrame
        :: (draws.map (fun d => RenderCommand.render d.mesh d.material)
            ++ [RenderCommand.endFrame]) := by
  obtain ⟨x, y, z⟩ :=
    runDraws_single_channel draws (initEngine 1).begin_rendering rfl rfl
  show (Engine.end_rendering _).logs 0 = _
  have h0 : (0 : Nat) < (runDraws (initEngine 1).begin_rendering draws).numThreads := by
    rw [x]
    exact Nat.zero_lt_one
  have hb : (initEngine 1).begin_rendering.logs 0 = [RenderCommand.beginFrame] := by
    simp [initEngine, Engine.begin_rendering, sendAll]
  rw [hb] at z
  simp [Engine.end_rendering, sendAll, h0, z]

theorem workerStep_render_material (s : WorkerState) (m mt : Nat) :
    (workerStep s (RenderCommand.render m mt)).lastMaterial = some mt
    ∧ (workerStep s (RenderCommand.render m mt)).pipelineBinds
        = (if s.lastMaterial = some mt then s.pipelineBinds else s.pipelineBinds + 1) := by
  by_cases h1 : s.lastMesh = some m <;> by_cases h2 : s.lastMaterial = some mt <;>
    simp [workerStep, cull_test, h1, h2]

theorem worker_pipeline_fold (draws : List Draw) :
    ∀ s : WorkerState,
      (List.foldl workerStep s
          (draws.map fun d => RenderCommand.render d.mesh d.material)).pipelineBinds
        = s.pipelineBinds + countChanges s.lastMaterial (draws.map Draw.material) := by
  induction draws with
  | nil =>
    intro s
    simp [countChanges]
  | cons d rest ih =>
    intro s
    rw [List.map_cons, List.foldl_cons, List.map_cons]
    obtain ⟨hmat, hbind⟩ := workerStep_render_material s d.mesh d.material
    rw [ih (workerStep s (RenderCommand.render d.mesh d.material)), hmat, hbind]
    by_cases h2 : s.lastMaterial = some d.material
    · simp [countChanges, h2]
    · simp [countChanges, h2]
      omega

theorem countChanges_cons_tail (ms : List Nat) :
    ∀ a : Nat, List.Pairwise (fun x y => x ≤ y) (a :: ms) →
      countChanges (some a) ms + 1 = ((a :: ms).dedup).length := by
  induction ms with
  | nil =>
    intro a _
    simp [countChanges]
  | cons b ms ih =>
    intro a h
    rw [List.pairwise_cons] at h
    obtain ⟨hab, hb⟩ := h
    by_cases hEq : a = b
    · subst hEq
      rw [List.dedup_cons_of_mem (List.mem_cons_self a ms)]
      have hcc : countChanges (some a) (a :: ms) = countChanges (some a) ms := by
        simp [countChanges]
      rw [hcc]
      exact ih a hb
    · have hne : (some a : Option Nat) ≠ some b := by simpa using hEq
      have hstep : countChanges (some a) (b :: ms) = countChanges (some b) ms + 1 := by
        simp [countChanges, hne]
      rw [hstep]
      have hnotmem : a ∉ b :: ms := by
        intro hmem
        rcases List.mem_cons.mp hmem with h1 | h1
        · exact hEq h1
        · have hba : b ≤ a := (List.pairwise_cons.mp hb).1 a h1
          have hab2 : a ≤ b := hab b (List.mem_cons_self b ms)
          exact hEq (Nat.le_antisymm hab2 hba)
      rw [List.dedup_cons_of_not_mem hnotmem]
      simp only [List.length_cons]
      rw [← ih b hb]

theorem countChanges_pairwise (ms : List Nat)
    (hs : List.Pairwise (fun x y => x ≤ y) ms) :
    countChanges none ms = ms.dedup.length := by
  cases ms with
  | nil => simp [countChanges]
  | cons a ms =>
    have hh : countChanges none (a :: ms) = countChanges (some a) ms + 1 := by
      simp [countChanges]
    rw [hh]
    exact countChanges_cons_tail ms a hs

/-- C3 (counterexample): with two worker channels, the sorted draw list with
one material on two distinct meshes incurs two pipeline rebinds (the mesh
change rotates to the other worker, whose own last-bound material is null),
although the list has a single distinct material. -/
theorem sorted_rebinds_counterexample :
    List.Pairwise matMeshLe [Draw.mk 0 0, Draw.mk 1 0]
    ∧ distinctMaterialCount [Draw.mk 0 0, Draw.mk 1 0] = 1
    ∧ totalPipelineRebinds 2 [Draw.mk 0 0, Draw.mk 1 0] = 2
    ∧ ¬ totalPipelineRebinds 2 [Draw.mk 0 0, Draw.mk 1 0]
        = distinctMaterialCount [Draw.mk 0 0, Draw.mk 1 0] := by
  refine ⟨by decide, by decide, by decide, by decide⟩

/-- C3 (amended): for a draw list sorted by (material, mesh), the total number
of pipeline rebinds recorded across all workers equals the number of distinct
materials when the engine has a single render worker channel; with two or more
channels the total can exceed the distinct-material count, because the
round-robin rotation on a mesh change hands the same material to another
worker, which rebinds it again. -/
theorem sorted_rebinds_single_worker (draws : List Draw)
    (hs : List.Pairwise matMeshLe draws) :
    totalPipelineRebinds 1 draws = distinctMaterialCount draws := by
  unfold totalPipelineRebinds
  rw [Finset.sum_range_one]
  rw [frame_log_single_channel]
  unfold runWorker
  rw [List.foldl_cons]
  have hbegin : workerStep initWorker RenderCommand.beginFrame = initWorker := rfl
  rw [hbegin, List.foldl_append]
  have hend : ∀ s : WorkerState,
      (List.foldl workerStep s [RenderCommand.endFrame]).pipelineBinds
        = s.pipelineBinds := fun s => rfl
  rw [hend]
  rw [worker_pipeline_fold]
  show 0 + countChanges none (draws.map Draw.material) = _
  rw [Nat.zero_add]
  unfold distinctMaterialCount
  apply countChanges_pairwise
  refine hs.map Draw.material ?_
  intro a b hab
  rcases hab with h | h
  · exact Nat.le_of_lt h
  · exact Nat.le_of_eq h.1

/-- Witness for C3 (amended) on a concrete sorted two-draw list with one
material on one worker channel. -/
theorem sorted_rebinds_single_worker_witness :
    List.Pairwise matMeshLe [Draw.mk 0 0, Draw.mk 1 0]
    ∧ totalPipelineRebinds 1 [Draw.mk 0 0, Draw.mk 1 0]
        = distinctMaterialCount [Draw.mk 0 0, Draw.mk 1 0] :=
  ⟨by decide, sorted_rebinds_single_worker [Draw.mk 0 0, Draw.mk 1 0] (by decide)⟩
